import Mathlib

/-!
Formal model of the Cost-Optimization-Analyzer backend core
(CSV normalization, ingestion batching, daily/monthly aggregation,
z-score anomaly detection, reserved-instance recommendations).

Modelling conventions:
* JavaScript numbers are modelled as exact rationals (`ℚ`); `NaN` is the
  distinguished constructor `JSNum.nan` where a parse can fail.
* JavaScript `a || b` on numbers (falsy: `0`, `NaN`, absent) is `jsNumOr`;
  on strings (falsy: `""`, absent) it is `jsStr` / `jsOrStr`.
* `Date` values are modelled by `JDate` (calendar fields plus the
  time-of-day remainder), which supports exactly the two mutations the
  source performs: `setHours(0,0,0,0)` and `setDate(1)`.  `toISOString`
  is injective on dates and contains no underscore, so a JS map key of
  the form `iso + "_" + dims` is modelled by the pair `(JDate, dims)`.
* `Math.sqrt` appears only inside comparisons (`zScore > t`,
  `stddev/mean < 0.2`); those comparisons are embedded in the exactly
  equivalent squared form (both sides nonnegative), as noted at each use.
-/

/-- JavaScript `s || d` for a string already known to be a string
(`""` is the only falsy string). -/
def jsStr (s d : String) : String := if s = "" then d else s

/-- JavaScript `v || d` where `v` is a possibly absent string field. -/
def jsOrStr (v : Option String) (d : String) : String :=
  match v with
  | some s => jsStr s d
  | none => d

/-- JavaScript `q || d` for a (non-NaN) number: `0` is falsy. -/
def jsOrQ (q d : ℚ) : ℚ := if q = 0 then d else q

/-- JavaScript `n || d` for a nonnegative integer count: `0` is falsy. -/
def jsOrN (n d : ℕ) : ℕ := if n = 0 then d else n

/-- Result of a JavaScript numeric parse: a rational or `NaN`. -/
inductive JSNum where
  | nan : JSNum
  | num : ℚ → JSNum
deriving DecidableEq

/-- JavaScript `v || d` for a possibly absent, possibly NaN number field:
absent, `NaN` and `0` are all falsy. -/
def jsNumOr (v : Option JSNum) (d : ℚ) : ℚ :=
  match v with
  | some (JSNum.num q) => if q = 0 then d else q
  | _ => d

/-- Value of a list of decimal digit characters. -/
def natOfDigits (ds : List Char) : ℕ :=
  ds.foldl (fun a c => a * 10 + (c.toNat - 48)) 0

/-- Model of JavaScript `parseFloat` on the decimal numerals that occur in
billing CSVs: optional sign, integer digits, optional fraction digits,
taken as the longest numeric prefix; `NaN` when no digit is found.
(Exponent, `Infinity` and leading-whitespace forms are not modelled.) -/
def jsParseFloat (s : String) : JSNum :=
  let cs := s.toList
  let sgn : ℚ := match cs with
    | '-' :: _ => -1
    | _ => 1
  let cs1 := match cs with
    | '-' :: t => t
    | '+' :: t => t
    | _ => cs
  let ip := cs1.takeWhile (fun c => c.isDigit)
  let rest := cs1.drop ip.length
  let fp := match rest with
    | '.' :: t => t.takeWhile (fun c => c.isDigit)
    | _ => []
  if ip.isEmpty && fp.isEmpty then JSNum.nan
  else JSNum.num (sgn * ((natOfDigits ip : ℚ) + (natOfDigits fp : ℚ) / (10 : ℚ) ^ fp.length))

/-- A JavaScript `Date`, at the granularity the source uses: calendar
fields and the millisecond offset inside the day.  `setHours(0,0,0,0)`
clears `msOfDay`; `setDate(1)` sets `day := 1`. -/
structure JDate where
  year : Int
  month : Int
  day : Int
  msOfDay : Int
deriving DecidableEq

/-- `date.setHours(0, 0, 0, 0)`. -/
def startOfDay (d : JDate) : JDate := { d with msOfDay := 0 }

/-- `date.setDate(1); date.setHours(0, 0, 0, 0)`. -/
def monthFirst (d : JDate) : JDate := { d with day := 1, msOfDay := 0 }

/-- A raw CSV row: column name to cell text, as produced by the
streaming parser (`columns: true`, values are strings). -/
def RawRow : Type := List (String × String)

/-- The copy step of `normalizeLineItem` (ingestionService lines 51-56):
a column reaches the normalized record only when it is defined and not
the empty string. -/
def getCell (row : RawRow) (col : String) : Option String :=
  match List.lookup col row with
  | some s => if s = "" then none else some s
  | none => none

/-- A normalized billing line item (the fields read by the verified
operations; unread CSV passthrough fields and the tag map are omitted). -/
structure LineItem where
  invoiceId : Option String := none
  usageType : Option String := none
  usageStartDate : Option JDate := none
  ingestionDate : JDate
  ingestionJobId : String := ""
  userId : String := ""
  accountId : String
  service : String
  region : String := "unknown"
  cost : ℚ
  usageQuantityNormalized : ℚ := 0
  usageTypeNormalized : String := ""
deriving DecidableEq

/-- `normalizeLineItem(row, jobId)` (ingestionService lines 44-95).
`dparse` abstracts `new Date(string)` and `regionOf` abstracts the
regex-based `extractRegion` (lines 100-116); no verified claim depends
on their internals.  `now` is the `new Date()` stored as
`ingestionDate`. -/
def normalizeLineItem (dparse : String → JDate) (regionOf : String → String)
    (now : JDate) (row : RawRow) (jobId : String) : LineItem :=
  let linkedAccountId := getCell row "LinkedAccountId"
  let payerAccountId := getCell row "PayerAccountId"
  let productName := getCell row "ProductName"
  let productCode := getCell row "ProductCode"
  let usageType := getCell row "UsageType"
  let availabilityZone := getCell row "AvailabilityZone"
  let usageQuantity := (getCell row "UsageQuantity").map jsParseFloat
  let blendedCost := (getCell row "BlendedCost").map jsParseFloat
  let unblendedCost := (getCell row "UnblendedCost").map jsParseFloat
  { invoiceId := getCell row "InvoiceID"
    usageType := usageType
    usageStartDate := (getCell row "UsageStartDate").map dparse
    ingestionDate := now
    ingestionJobId := jobId
    accountId := jsOrStr linkedAccountId (jsOrStr payerAccountId "unknown")
    service := jsOrStr productName (jsOrStr productCode "unknown")
    region := regionOf (jsOrStr availabilityZone (jsOrStr usageType ""))
    cost := jsNumOr unblendedCost (jsNumOr blendedCost 0)
    usageQuantityNormalized := jsNumOr usageQuantity 0
    usageTypeNormalized := jsOrStr usageType "" }

/-- The required-field validation of `processCSVFile` (line 171):
`!accountId || !service || cost === undefined`.  In the model `cost` is
always an assigned number (line 81 assigns unconditionally), so only the
two string checks remain. -/
def missingRequired (n : LineItem) : Bool :=
  n.accountId == "" || n.service == ""

/-- Cost derivation as claim C5 words it: the parsed unblended cost
whenever an unblended value is present in the row (a value that fails
parsing counting as absent), else the parsed blended cost when present,
else 0.  Defined from the claim, for comparison with the source. -/
def costClaimC5 (row : RawRow) : ℚ :=
  match (getCell row "UnblendedCost").map jsParseFloat with
  | some (JSNum.num q) => q
  | _ =>
    match (getCell row "BlendedCost").map jsParseFloat with
    | some (JSNum.num q) => q
    | _ => 0

/-- A parsed cost field as JavaScript truthiness sees it: kept only when
it is present and parses to a nonzero number. -/
def numPick : Option JSNum → Option ℚ
  | some (JSNum.num q) => if q = 0 then none else some q
  | _ => none

/-- Cost derivation as amended claim C5 words it: the first of
unblended, blended that is present and parses to a nonzero number,
else 0 (a parse failure or a parsed value of 0 falls through). -/
def costAmendedC5 (row : RawRow) : ℚ :=
  match numPick ((getCell row "UnblendedCost").map jsParseFloat) with
  | some q => q
  | none =>
    match numPick ((getCell row "BlendedCost").map jsParseFloat) with
    | some q => q
    | none => 0

/-! ## Generic model of the JS `Map`-based group-and-accumulate pattern

Every aggregation loop in the source has the shape
`if (!map.has(key)) map.set(key, zeroRecord); map.get(key).accumulate(item)`
over a `Map`, which preserves insertion order.  `bumpAssoc` performs one
such step on an association list; `groupRun` folds it over the items. -/

/-- One `Map` step: update the entry at `k` with `f`, first installing
`z` when the key is new (new keys go to the back, as in a JS `Map`). -/
def bumpAssoc {K α : Type} [DecidableEq K]
    (m : List (K × α)) (k : K) (z : α) (f : α → α) : List (K × α) :=
  match m with
  | [] => [(k, f z)]
  | (k1, a) :: t => if k1 = k then (k1, f a) :: t else (k1, a) :: bumpAssoc t k z f

/-- Fold a group-and-accumulate loop over a list of items. -/
def groupRun {β K α : Type} [DecidableEq K]
    (keyOf : β → K) (zero : β → α) (bump : β → α → α) (items : List β) : List (K × α) :=
  items.foldl (fun m it => bumpAssoc m (keyOf it) (zero it) (bump it)) []

/-- Association-list lookup by propositional key equality. -/
def lookupA {K α : Type} [DecidableEq K] : List (K × α) → K → Option α
  | [], _ => none
  | (k1, a) :: t, k => if k1 = k then some a else lookupA t k

/-- The accumulated value a run of `groupRun` produces from the items of
one key, in encounter order. -/
def groupValue {β α : Type} (zero : β → α) (bump : β → α → α) : List β → Option α
  | [] => none
  | i :: rest => some (rest.foldl (fun a it => bump it a) (bump i (zero i)))

/-! ## Daily and monthly aggregation (ingestionService lines 266-467) -/

/-- One stored aggregate row (the dimensions and the three metrics;
`aggregationType` is daily or monthly according to which builder wrote
the row). -/
structure AggRow where
  date : JDate
  accountId : String
  service : String
  region : String
  totalCost : ℚ
  totalUsageQuantity : ℚ
  lineItemCount : ℕ
deriving DecidableEq

/-- `new Date(item.usageStartDate || item.ingestionDate)` followed by
`setHours(0,0,0,0)` (lines 293-294): a `Date` is always truthy, so `||`
only covers the absent field. -/
def itemDay (it : LineItem) : JDate :=
  startOfDay (it.usageStartDate.getD it.ingestionDate)

/-- Join three dimension values with `_`, as the template literals of
lines 296, 408, 526 and 550 do after their date prefix. -/
def join3 (a b c : String) : String := a ++ "_" ++ b ++ "_" ++ c

/-- Grouping key of the daily aggregation (line 296):
`iso(day)_acc_svc_region` with `|| 'unknown'` on each dimension.  The
ISO date prefix is underscore-free and injective in the instant, so the
key is modelled as the pair (day, joined dimensions). -/
def dailyKey (it : LineItem) : JDate × String :=
  (itemDay it,
   join3 (jsStr it.accountId "unknown") (jsStr it.service "unknown")
     (jsStr it.region "unknown"))

/-- Fresh daily aggregate record (lines 299-309). -/
def dailyZero (it : LineItem) : AggRow :=
  { date := itemDay it
    accountId := jsStr it.accountId "unknown"
    service := jsStr it.service "unknown"
    region := jsStr it.region "unknown"
    totalCost := 0
    totalUsageQuantity := 0
    lineItemCount := 0 }

/-- Daily accumulation (lines 312-315): `totalCost += item.cost || 0`,
`totalUsageQuantity += item.usageQuantityNormalized || 0`,
`lineItemCount += 1`. -/
def dailyBump (it : LineItem) (a : AggRow) : AggRow :=
  { a with
    totalCost := a.totalCost + jsOrQ it.cost 0
    totalUsageQuantity := a.totalUsageQuantity + jsOrQ it.usageQuantityNormalized 0
    lineItemCount := a.lineItemCount + 1 }

/-- The daily aggregate rows `aggregateData` computes for a user's line
items (lines 290-326); after the delete-and-insert rebuild these are
exactly the user's stored daily rows. -/
def dailyAggregates (items : List LineItem) : List AggRow :=
  (groupRun dailyKey dailyZero dailyBump items).map Prod.snd

/-- Grouping key of the monthly aggregation (lines 404-408):
first-of-month date plus `|| 'unknown'`-joined dimensions. -/
def monthlyKey (d : AggRow) : JDate × String :=
  (monthFirst d.date,
   join3 (jsStr d.accountId "unknown") (jsStr d.service "unknown")
     (jsStr d.region "unknown"))

/-- Fresh monthly aggregate record (lines 410-421). -/
def monthlyZero (d : AggRow) : AggRow :=
  { date := monthFirst d.date
    accountId := jsStr d.accountId "unknown"
    service := jsStr d.service "unknown"
    region := jsStr d.region "unknown"
    totalCost := 0
    totalUsageQuantity := 0
    lineItemCount := 0 }

/-- Monthly accumulation (lines 424-427), each metric with `|| 0`. -/
def monthlyBump (d : AggRow) (a : AggRow) : AggRow :=
  { a with
    totalCost := a.totalCost + jsOrQ d.totalCost 0
    totalUsageQuantity := a.totalUsageQuantity + jsOrQ d.totalUsageQuantity 0
    lineItemCount := a.lineItemCount + jsOrN d.lineItemCount 0 }

/-- The monthly aggregate rows `computeMonthlyAggregates` builds from a
user's daily rows (lines 401-437); after the delete-and-insert rebuild
these are exactly the user's stored monthly rows. -/
def computeMonthlyAggregates (rows : List AggRow) : List AggRow :=
  (groupRun monthlyKey monthlyZero monthlyBump rows).map Prod.snd

/-- Underscore-free strings: the joined grouping keys separate their
components unambiguously exactly on such dimension values. -/
def noU (s : String) : Prop := '_' ∉ s.data

instance (s : String) : Decidable (noU s) := by
  unfold noU; infer_instance

/-- Dimension triple of a daily row that the `_`-joined monthly key
represents faithfully: nonempty (so `|| 'unknown'` keeps the value) and
underscore-free (so the join is injective). -/
def dimsOK (r : AggRow) : Prop :=
  r.accountId ≠ "" ∧ noU r.accountId ∧ r.service ≠ "" ∧ noU r.service ∧
    r.region ≠ "" ∧ noU r.region

instance (r : AggRow) : Decidable (dimsOK r) := by
  unfold dimsOK; infer_instance

/-! ## Anomaly detection (anomalyDetectionService) -/

/-- Grouping key of the line-item fallback of `detectAnomalies`
(line 526): `iso(day)_` plus `|| 'all'`-joined dimensions, modelled as
the (day, joined dims) pair. -/
def fbKey (it : LineItem) : JDate × String :=
  (itemDay it, join3 (jsStr it.accountId "all") (jsStr it.service "all") (jsStr it.region "all"))

/-- Fresh fallback data point (lines 529-535): note it stores the raw
`item.accountId` / `service` / `region`, without the `'all'` fallback
used in the key.  The source object carries only `date`, the three
dimensions and `totalCost`; the two unused metrics are 0 here. -/
def fbZero (it : LineItem) : AggRow :=
  { date := itemDay it
    accountId := it.accountId
    service := it.service
    region := it.region
    totalCost := 0
    totalUsageQuantity := 0
    lineItemCount := 0 }

/-- Fallback accumulation (line 537): `totalCost += item.cost || 0`. -/
def fbBump (it : LineItem) (a : AggRow) : AggRow :=
  { a with totalCost := a.totalCost + jsOrQ it.cost 0 }

/-- The per-day data points `detectAnomalies` computes from line items
when no daily aggregates exist in the window (lines 521-540). -/
def fallbackDailyPoints (items : List LineItem) : List AggRow :=
  (groupRun fbKey fbZero fbBump items).map Prod.snd

/-- The fallback as claim C6 words it: line items grouped by calendar
day only, account/service/region ignored, one data point per day whose
`totalCost` sums every matching item's cost.  Defined from the claim,
for comparison with the source. -/
def fallbackClaimC6 (items : List LineItem) : List (JDate × ℚ) :=
  groupRun itemDay (fun _ => (0 : ℚ)) (fun it q => q + jsOrQ it.cost 0) items

/-- Split a character list at every underscore (tail of
`splitUnders`). -/
def splitUndersAux : List Char → List Char → List String
  | [], acc => [String.mk acc.reverse]
  | c :: t, acc =>
    if c = '_' then String.mk acc.reverse :: splitUndersAux t []
    else splitUndersAux t (c :: acc)

/-- JavaScript `key.split('_')`: the underscore-separated components of
`key`, empty components included. -/
def splitUnders (s : String) : List String := splitUndersAux s.data []

/-- One emitted anomaly (the fields the verified claims inspect;
`variancePercent` and the formatted `description` string are omitted).
`zScoreSq` is the square of the stored `zScore = |cost - mean| / stddev`;
every threshold comparison on `zScore` in the source compares two
nonnegative reals and is modelled on the squares. -/
structure AnomalyRec where
  typ : String
  severity : String
  accountId : Option String
  service : Option String
  region : Option String
  date : JDate
  cost : ℚ
  expectedCost : ℚ
  costVariance : ℚ
  zScoreSq : ℚ
deriving DecidableEq

/-- Severity enumeration of the `Anomaly` schema (Anomaly.js lines 9-14). -/
def anomalySeverityEnum : List String := ["low", "medium", "high", "critical"]

/-- Anomalies one group emits (lines 560-593).  `key` is the group key
`acc_svc_region` (with `'all'` for falsy dimensions); the source splits
it back on `_` to fill the anomaly's dimensions, `undefined` for
`'all'`.  With population variance `v` and mean `m`, the source flags
`|c - m| / sqrt(v) > t`, modelled as `t^2 * v < (c - m)^2` (equivalent
for the nonnegative thresholds in use), and grades severity by the same
comparison against 4 and 3. -/
def groupAnomalies (threshold : ℚ) (key : String) (l : List AggRow) : List AnomalyRec :=
  let costs := l.map (fun d => d.totalCost)
  let n : ℚ := costs.length
  let mean := costs.sum / n
  let varPop := (costs.map (fun c => (c - mean) ^ 2)).sum / n
  if varPop = 0 then []
  else
    let parts := splitUnders key
    let account := parts.getD 0 ""
    let service := parts.getD 1 ""
    let region := parts.getD 2 ""
    (l.filter fun a => decide (threshold ^ 2 * varPop < (a.totalCost - mean) ^ 2)).map fun a =>
      { typ := if a.totalCost > mean then "spike" else "drop"
        severity :=
          if (a.totalCost - mean) ^ 2 > 16 * varPop then "critical"
          else if (a.totalCost - mean) ^ 2 > 9 * varPop then "high"
          else "medium"
        accountId := if account ≠ "all" then some account else none
        service := if service ≠ "all" then some service else none
        region := if region ≠ "all" then some region else none
        date := a.date
        cost := a.totalCost
        expectedCost := mean
        costVariance := a.totalCost - mean
        zScoreSq := (a.totalCost - mean) ^ 2 / varPop }

/-- Group key of the anomaly grouping stage (line 550). -/
def anomalyGroupKey (a : AggRow) : String :=
  join3 (jsStr a.accountId "all") (jsStr a.service "all") (jsStr a.region "all")

/-- Core of `detectAnomalies` on the fetched (or fallback) data points
(lines 543-594): require at least 7 points, group by
account/service/region, skip zero-variance groups, flag z-score
outliers. -/
def detectAnomaliesCore (threshold : ℚ) (pts : List AggRow) : List AnomalyRec :=
  if pts.length < 7 then []
  else
    ((groupRun anomalyGroupKey (fun _ => ([] : List AggRow)) (fun a l => l ++ [a]) pts).map
      (fun kg => groupAnomalies threshold kg.1 kg.2)).flatten

/-- `detectAnomalies` data-selection step (lines 506-541): use the daily
aggregates found in the window, or the line-item fallback when none
exist. -/
def detectAnomalies (threshold : ℚ) (aggs : List AggRow) (items : List LineItem) :
    List AnomalyRec :=
  detectAnomaliesCore threshold (if aggs.isEmpty then fallbackDailyPoints items else aggs)

/-! ## Reserved-instance recommendations (recommendationService,
`detectRIOpportunities`) -/

/-- One reserved-instance recommendation (the fields claim C8 inspects). -/
structure RIRec where
  typ : String
  priority : String
  accountId : String
  currentCost : ℚ
  estimatedSavings : ℚ
  estimatedSavingsPercent : ℚ
deriving DecidableEq

/-- Per-account decision of `detectRIOpportunities` (lines 264-294):
from an account's monthly cost list, compute the mean and population
variance and recommend when
`avgMonthlyCost > 500 && stddev / avgMonthlyCost < 0.2`.  The
coefficient-of-variation test is modelled in squared form
`25 * variance < mean^2`, equivalent to the source condition whenever
`mean > 500` (and the conjunction is equivalent as a whole, both sides
being false when `mean ≤ 500`). -/
def riCandidate (kc : String × List ℚ) : Option RIRec :=
  let costs := kc.2
  let n : ℚ := costs.length
  let mean := costs.sum / n
  let varPop := (costs.map (fun c => (c - mean) ^ 2)).sum / n
  if 500 < mean ∧ 25 * varPop < mean ^ 2 then
    some
      { typ := "reserved_instance"
        priority := "high"
        accountId := kc.1
        currentCost := mean
        estimatedSavings := mean * (1 / 2)
        estimatedSavingsPercent := 50 }
  else none

/-- `detectRIOpportunities` on the fetched monthly EC2 aggregates:
group `totalCost` values by `accountId` (a JS object keyed by the
account string), then decide each account with `riCandidate`. -/
def detectRIOpportunities (items : List AggRow) : List RIRec :=
  (groupRun (fun it : AggRow => it.accountId) (fun _ => ([] : List ℚ))
      (fun it l => l ++ [it.totalCost]) items).filterMap riCandidate

/-! ## Ingestion batching (processCSVFile, lines 121-260)

The document store is modelled as the list of stored items plus the
unique-index key functions the collection declares; an unordered
`insertMany` inserts every non-conflicting document and reports error
code 11000 at the end when at least one document conflicted.  The
`BillingLineItem` schema declares five compound indexes and no
`unique: true` option on any of them (BillingLineItem.js lines 26-89),
so its unique-key list is empty. -/

/-- The index declarations of `billingLineItemSchema`: field paths and
whether the index is declared unique.  None is. -/
def billingLineItemIndexes : List (List String × Bool) :=
  [ (["userId", "accountId", "service", "ingestionDate"], false),
    (["userId", "accountId", "region", "ingestionDate"], false),
    (["userId", "service", "ingestionDate"], false),
    (["userId", "ingestionDate", "cost"], false),
    (["userId", "tags", "ingestionDate"], false) ]

/-- Unique-constraint key functions of the `BillingLineItem` collection:
none, since no index in the schema is unique (`_id` is auto-generated
afresh for every insert and cannot collide). -/
def billingLineItemUniqueKeys : List (LineItem → String) := []

/-- Does `d` collide with a stored document on some unique index? -/
def conflicts (ks : List (LineItem → String)) (store : List LineItem) (d : LineItem) : Bool :=
  ks.any fun k => store.any fun e => k e == k d

/-- `insertMany(docs, { ordered: false })`: attempt every document
against the evolving store; return the new store and whether a
duplicate-key error (code 11000) is raised at the end. -/
def insertManyUnordered (ks : List (LineItem → String)) (store docs : List LineItem) :
    List LineItem × Bool :=
  docs.foldl
    (fun acc d => if conflicts ks acc.1 d then (acc.1, true) else (acc.1 ++ [d], acc.2))
    (store, false)

/-- Mutable state of one `processCSVFile` run: the collection plus the
local counters and buffers of lines 140-145 (`errors` keeps the row
numbers of the recorded error entries). -/
structure IngestState where
  store : List LineItem
  batch : List LineItem
  rowCount : ℕ
  processedCount : ℕ
  skippedCount : ℕ
  errors : List ℕ
deriving Inhabited

/-- The chunk flush of lines 185-204: on success count the whole batch
as processed; on a duplicate-key error count the whole batch as skipped
(the store has still kept the non-conflicting documents); either way
clear the batch. -/
def flushMid (ks : List (LineItem → String)) (st : IngestState) : IngestState :=
  let r := insertManyUnordered ks st.store st.batch
  if r.2 then
    { st with store := r.1, skippedCount := st.skippedCount + st.batch.length, batch := [] }
  else
    { st with store := r.1, processedCount := st.processedCount + st.batch.length, batch := [] }

/-- Where a non-11000 chunk-write error lands (lines 199-200 rethrow it
into the data handler's catch of lines 206-213): one more skipped row
and one error entry; line 202's `batch = []` is not reached, so the
batch stays buffered, and the run is not rejected. -/
def flushMidFailure (st : IngestState) : IngestState :=
  { st with skippedCount := st.skippedCount + 1, errors := st.errors ++ [st.rowCount] }

/-- The data-row handler (lines 161-213): count the row, normalize,
stamp the user, validate required fields, buffer, flush full chunks. -/
def processRow (ks : List (LineItem → String)) (chunkSize : ℕ)
    (dparse : String → JDate) (regionOf : String → String) (now : JDate)
    (jobId userId : String) (st : IngestState) (row : RawRow) : IngestState :=
  let st := { st with rowCount := st.rowCount + 1 }
  let n := { normalizeLineItem dparse regionOf now row jobId with userId := userId }
  if missingRequired n then
    { st with skippedCount := st.skippedCount + 1, errors := st.errors ++ [st.rowCount] }
  else
    let st := { st with batch := st.batch ++ [n] }
    if chunkSize ≤ st.batch.length then flushMid ks st else st

/-- The final flush of lines 216-228 (same counting as the chunk flush;
a non-11000 error there is only logged, which the store model cannot
produce). -/
def flushFinal (ks : List (LineItem → String)) (st : IngestState) : IngestState :=
  if st.batch.isEmpty then st
  else
    let r := insertManyUnordered ks st.store st.batch
    if r.2 then
      { st with store := r.1, skippedCount := st.skippedCount + st.batch.length, batch := [] }
    else
      { st with store := r.1, processedCount := st.processedCount + st.batch.length, batch := [] }

/-- A fresh run over an existing collection: counters and buffers are
local to `processCSVFile` and start at zero. -/
def initIngest (store : List LineItem) : IngestState :=
  { store := store, batch := [], rowCount := 0, processedCount := 0, skippedCount := 0,
    errors := [] }

/-- One full `processCSVFile` pass over the parsed data rows of a file
for one user: the row loop followed by the final flush. -/
def processCSVRows (ks : List (LineItem → String)) (chunkSize : ℕ)
    (dparse : String → JDate) (regionOf : String → String) (now : JDate)
    (jobId userId : String) (store : List LineItem) (rows : List RawRow) : IngestState :=
  flushFinal ks
    (rows.foldl (processRow ks chunkSize dparse regionOf now jobId userId) (initIngest store))

/-! ## Concrete inputs used by counterexamples and witnesses -/

/-- Trivial stand-in for `new Date(string)` in concrete runs whose rows
carry no date columns. -/
def dparse0 : String → JDate := fun _ => { year := 1970, month := 0, day := 1, msOfDay := 0 }

/-- Trivial stand-in for `extractRegion` in concrete runs. -/
def regionOf0 : String → String := fun _ => "unknown"

/-- A fixed ingestion instant for concrete runs. -/
def now0 : JDate := { year := 2024, month := 0, day := 15, msOfDay := 0 }

/-- Row whose unblended cost is present and parses to `0` while the
blended cost is `5`. -/
def rowC5 : RawRow := [("UnblendedCost", "0"), ("BlendedCost", "5")]

/-- The single data row of the duplicate-ingestion run. -/
def rowC1 : RawRow :=
  [("InvoiceID", "inv1"), ("LinkedAccountId", "123"), ("ProductName", "AmazonEC2"),
   ("UnblendedCost", "5")]

/-- A line item of account `acc` costing `c` (other fields defaulted). -/
def mkLI (acc : String) (c : ℚ) : LineItem :=
  { ingestionDate := now0, accountId := acc, service := "svc", cost := c }

/-- A hypothetical unique constraint keyed on the account id, standing
for the logical-row uniqueness the spec assumes the store enforces. -/
def ksAcc : List (LineItem → String) := [fun it => it.accountId]

/-- Mid-file state holding one stored item and a two-row batch whose
first row collides with the store on `ksAcc`. -/
def stC4 : IngestState :=
  { store := [mkLI "acc1" 5], batch := [mkLI "acc1" 5, mkLI "acc2" 7], rowCount := 2,
    processedCount := 0, skippedCount := 0, errors := [] }

/-- A calendar day used by the aggregation examples. -/
def day5 : JDate := { year := 2024, month := 0, day := 5, msOfDay := 0 }

/-- Daily row with an underscore inside `accountId`. -/
def aggU1 : AggRow :=
  { date := day5, accountId := "a_b", service := "c", region := "r", totalCost := 1,
    totalUsageQuantity := 0, lineItemCount := 1 }

/-- Daily row whose `_`-joined dimensions collide with `aggU1`. -/
def aggU2 : AggRow :=
  { date := day5, accountId := "a", service := "b_c", region := "r", totalCost := 2,
    totalUsageQuantity := 0, lineItemCount := 1 }

/-- Underscore-free daily rows for the monthly witness: two rows of one
dimension tuple in the same month, one row of another account. -/
def aggW : List AggRow :=
  [ { date := day5, accountId := "a", service := "s", region := "r", totalCost := 3,
      totalUsageQuantity := 1, lineItemCount := 2 },
    { date := { year := 2024, month := 0, day := 20, msOfDay := 0 }, accountId := "a",
      service := "s", region := "r", totalCost := 4, totalUsageQuantity := 1,
      lineItemCount := 1 },
    { date := day5, accountId := "b", service := "s", region := "r", totalCost := 5,
      totalUsageQuantity := 2, lineItemCount := 3 } ]

/-- Two same-day line items that differ only in account. -/
def liC6 : List LineItem :=
  [ { ingestionDate := day5, accountId := "a1", service := "s", region := "r", cost := 1 },
    { ingestionDate := day5, accountId := "a2", service := "s", region := "r", cost := 2 } ]

/-- Daily aggregate of the single anomaly-example group on day `k` of
January 2024 with cost `c`. -/
def aggDay (k : Int) (c : ℚ) : AggRow :=
  { date := { year := 2024, month := 0, day := k, msOfDay := 0 }, accountId := "acct1",
    service := "svc1", region := "reg1", totalCost := c, totalUsageQuantity := 0,
    lineItemCount := 1 }

/-- Seven daily costs `[100,100,100,100,100,100,400]` of one group. -/
def anomalyInput7 : List AggRow :=
  [aggDay 1 100, aggDay 2 100, aggDay 3 100, aggDay 4 100, aggDay 5 100, aggDay 6 100,
   aggDay 7 400]

/-- Monthly EC2 aggregate of account `acct` with monthly cost `c` (the
month dimension is irrelevant to the grouping by account). -/
def aggMonthly (acct : String) (c : ℚ) : AggRow :=
  { date := { year := 2024, month := 0, day := 1, msOfDay := 0 }, accountId := acct,
    service := "AmazonEC2", region := "unknown", totalCost := c, totalUsageQuantity := 0,
    lineItemCount := 1 }

/-- Monthly costs of two accounts: `111` is stable above 500, `222` is
not. -/
def riItems : List AggRow :=
  [aggMonthly "111" 600, aggMonthly "222" 600, aggMonthly "111" 600, aggMonthly "222" 100,
   aggMonthly "111" 600]

/-- Left accumulation of a group's items over an optional accumulator:
`none` means the key has not been seen, after which each item bumps the
value seeded from `zero` on first contact.  `lookupA` after `groupRun`
produces exactly this. -/
def optFold {β α : Type} (zero : β → α) (bump : β → α → α) : Option α → List β → Option α
  | o, [] => o
  | o, i :: rest => optFold zero bump (some (bump i (o.getD (zero i)))) rest

/-- Does daily row `d` fall in the month and dimension tuple of monthly
row `p`?  (The matching relation of claim C3.) -/
def monthMatch (p d : AggRow) : Bool :=
  decide (monthFirst d.date = p.date) && (d.accountId == p.accountId) &&
    (d.service == p.service) && (d.region == p.region)

/-- Does line item `it` fall in the calendar day and dimension tuple of
fallback point `p`? -/
def dayMatch (p : AggRow) (it : LineItem) : Bool :=
  decide (itemDay it = p.date) && (it.accountId == p.accountId) &&
    (it.service == p.service) && (it.region == p.region)

/-- Dimension triple of a line item that the `_`-joined fallback key
represents faithfully. -/
def dimsOKItem (it : LineItem) : Prop :=
  it.accountId ≠ "" ∧ noU it.accountId ∧ it.service ≠ "" ∧ noU it.service ∧
    it.region ≠ "" ∧ noU it.region

instance (it : LineItem) : Decidable (dimsOKItem it) := by
  unfold dimsOKItem; infer_instance

/-- The single monthly row the underscore-collision example produces. -/
def mrowU : AggRow :=
  { date := { year := 2024, month := 0, day := 1, msOfDay := 0 }, accountId := "a_b",
    service := "c", region := "r", totalCost := 3, totalUsageQuantity := 0, lineItemCount := 2 }

/-- The one anomaly the `[100,100,100,100,100,100,400]` group emits once
the threshold is below `sqrt 6`. -/
def spikeRec7 : AnomalyRec :=
  { typ := "spike", severity := "medium", accountId := some "acct1", service := some "svc1",
    region := some "reg1", date := { year := 2024, month := 0, day := 7, msOfDay := 0 },
    cost := 400, expectedCost := 1000 / 7, costVariance := 1800 / 7, zScoreSq := 6 }

/-! # Theorems -/

/-! ## Basic lemmas about the JavaScript helpers -/

theorem jsNumOr_eq_numPick (v : Option JSNum) (d : ℚ) : jsNumOr v d = (numPick v).getD d := by
  cases v with
  | none => rfl
  | some n =>
    cases n with
    | nan => rfl
    | num q =>
      by_cases h : q = 0 <;> simp [jsNumOr, numPick, h]

theorem jsOrStr_ne_empty (v : Option String) (d : String) (hd : d ≠ "") :
    jsOrStr v d ≠ "" := by
  cases v with
  | none => exact hd
  | some s =>
    by_cases h : s = "" <;> simp [jsOrStr, jsStr, h, hd]

theorem jsStr_of_ne (s d : String) (h : s ≠ "") : jsStr s d = s := by
  simp [jsStr, h]

theorem jsOrQ_zero (q : ℚ) : jsOrQ q 0 = q := by
  by_cases h : q = 0 <;> simp [jsOrQ, h]

theorem jsOrN_zero (n : ℕ) : jsOrN n 0 = n := by
  by_cases h : n = 0 <;> simp [jsOrN, h]

/-! ## Lemmas about the grouping machinery -/

theorem lookupA_bumpAssoc_self {K α : Type} [DecidableEq K]
    (m : List (K × α)) (k : K) (z : α) (f : α → α) :
    lookupA (bumpAssoc m k z f) k = some (f ((lookupA m k).getD z)) := by
  induction m with
  | nil => simp [bumpAssoc, lookupA]
  | cons p t ih =>
    obtain ⟨k1, a⟩ := p
    by_cases h : k1 = k
    · subst h
      simp [bumpAssoc, lookupA]
    · simp [bumpAssoc, lookupA, h, ih]

theorem lookupA_bumpAssoc_ne {K α : Type} [DecidableEq K]
    (m : List (K × α)) (k k2 : K) (z : α) (f : α → α) (hk : k ≠ k2) :
    lookupA (bumpAssoc m k z f) k2 = lookupA m k2 := by
  induction m with
  | nil => simp [bumpAssoc, lookupA, hk]
  | cons p t ih =>
    obtain ⟨k1, a⟩ := p
    by_cases h : k1 = k
    · subst h
      simp [bumpAssoc, lookupA, hk]
    · simp [bumpAssoc, lookupA, h, ih]

theorem fst_bumpAssoc {K α : Type} [DecidableEq K]
    (m : List (K × α)) (k : K) (z : α) (f : α → α) :
    (bumpAssoc m k z f).map Prod.fst =
      if k ∈ m.map Prod.fst then m.map Prod.fst else m.map Prod.fst ++ [k] := by
  induction m with
  | nil => simp [bumpAssoc]
  | cons p t ih =>
    obtain ⟨k1, a⟩ := p
    by_cases h : k1 = k
    · subst h
      simp [bumpAssoc]
    · have hne : ¬ k = k1 := fun he => h he.symm
      by_cases hmem : k ∈ t.map Prod.fst <;> simp [bumpAssoc, h, ih, hne, hmem]

theorem nodup_fst_bumpAssoc {K α : Type} [DecidableEq K]
    (m : List (K × α)) (k : K) (z : α) (f : α → α)
    (hn : (m.map Prod.fst).Nodup) : ((bumpAssoc m k z f).map Prod.fst).Nodup := by
  rw [fst_bumpAssoc]
  by_cases hmem : k ∈ m.map Prod.fst
  · simpa [hmem] using hn
  · simp [hmem, List.nodup_append, hn]

theorem nodup_fst_groupRun {β K α : Type} [DecidableEq K]
    (keyOf : β → K) (zero : β → α) (bump : β → α → α) (items : List β) :
    ((groupRun keyOf zero bump items).map Prod.fst).Nodup := by
  suffices h : ∀ m : List (K × α), (m.map Prod.fst).Nodup →
      ((items.foldl (fun m it => bumpAssoc m (keyOf it) (zero it) (bump it)) m).map
        Prod.fst).Nodup by
    exact h [] (by simp)
  induction items with
  | nil => intro m hm; simpa using hm
  | cons i rest ih =>
    intro m hm
    exact ih _ (nodup_fst_bumpAssoc _ _ _ _ hm)

theorem lookupA_of_mem {K α : Type} [DecidableEq K]
    {m : List (K × α)} {k : K} {a : α}
    (hn : (m.map Prod.fst).Nodup) (hm : (k, a) ∈ m) : lookupA m k = some a := by
  induction m with
  | nil => cases hm
  | cons p t ih =>
    obtain ⟨k1, a1⟩ := p
    have hn2 : k1 ∉ t.map Prod.fst ∧ (t.map Prod.fst).Nodup := by
      simpa [List.nodup_cons] using hn
    rcases List.mem_cons.mp hm with h | h
    · injection h with h1 h2
      subst h1
      subst h2
      simp [lookupA]
    · have hk1 : k1 ≠ k := by
        rintro rfl
        exact hn2.1 (by simpa using List.mem_map_of_mem Prod.fst h)
      simp [lookupA, hk1, ih hn2.2 h]

theorem lookupA_foldl_bump {β K α : Type} [DecidableEq K]
    (keyOf : β → K) (zero : β → α) (bump : β → α → α) (items : List β) :
    ∀ (m : List (K × α)) (k : K),
      lookupA (items.foldl (fun m it => bumpAssoc m (keyOf it) (zero it) (bump it)) m) k =
        optFold zero bump (lookupA m k) (items.filter fun it => decide (keyOf it = k)) := by
  induction items with
  | nil => intro m k; rfl
  | cons i rest ih =>
    intro m k
    by_cases h : keyOf i = k
    · rw [List.foldl_cons, ih]
      have hf : (i :: rest).filter (fun it => decide (keyOf it = k)) =
          i :: rest.filter (fun it => decide (keyOf it = k)) := by
        simp [List.filter_cons, h]
      rw [hf]
      have hbl : lookupA (bumpAssoc m (keyOf i) (zero i) (bump i)) k =
          some (bump i ((lookupA m k).getD (zero i))) := by
        rw [h]; exact lookupA_bumpAssoc_self m k (zero i) (bump i)
      rw [hbl]
      rfl
    · rw [List.foldl_cons, ih]
      have hf : (i :: rest).filter (fun it => decide (keyOf it = k)) =
          rest.filter (fun it => decide (keyOf it = k)) := by
        simp [List.filter_cons, h]
      rw [hf, lookupA_bumpAssoc_ne m (keyOf i) k (zero i) (bump i) h]

theorem lookupA_groupRun {β K α : Type} [DecidableEq K]
    (keyOf : β → K) (zero : β → α) (bump : β → α → α) (items : List β) (k : K) :
    lookupA (groupRun keyOf zero bump items) k =
      optFold zero bump none (items.filter fun it => decide (keyOf it = k)) := by
  unfold groupRun
  rw [lookupA_foldl_bump keyOf zero bump items [] k]
  rfl

theorem optFold_some {β α : Type} (zero : β → α) (bump : β → α → α) (l : List β) :
    ∀ a : α, optFold zero bump (some a) l = some (l.foldl (fun x it => bump it x) a) := by
  induction l with
  | nil => intro a; rfl
  | cons i rest ih =>
    intro a
    rw [List.foldl_cons]
    exact ih (bump i a)

theorem optFold_none_cons {β α : Type} (zero : β → α) (bump : β → α → α)
    (i : β) (rest : List β) :
    optFold zero bump none (i :: rest) =
      some (rest.foldl (fun x it => bump it x) (bump i (zero i))) := by
  show optFold zero bump (some (bump i (zero i))) rest = _
  exact optFold_some zero bump rest (bump i (zero i))

theorem sum_map_bumpAssoc {K α M : Type} [DecidableEq K] [AddCommMonoid M]
    (g : α → M) (m : List (K × α)) (k : K) (z : α) (f : α → α) (c : M)
    (hf : ∀ a, g (f a) = g a + c) (hz : g z = 0) :
    ((bumpAssoc m k z f).map fun p => g p.2).sum = (m.map fun p => g p.2).sum + c := by
  induction m with
  | nil => simp [bumpAssoc, hf, hz]
  | cons p t ih =>
    obtain ⟨k1, a⟩ := p
    by_cases h : k1 = k
    · subst h
      have hb : bumpAssoc ((k1, a) :: t) k1 z f = (k1, f a) :: t := by
        simp [bumpAssoc]
      rw [hb, List.map_cons, List.sum_cons, hf, add_right_comm]
      simp
    · have hb : bumpAssoc ((k1, a) :: t) k z f = (k1, a) :: bumpAssoc t k z f := by
        simp [bumpAssoc, h]
      rw [hb, List.map_cons, List.sum_cons, ih]
      simp [add_assoc]

theorem sum_map_groupRun {β K α M : Type} [DecidableEq K] [AddCommMonoid M]
    (keyOf : β → K) (zero : β → α) (bump : β → α → α) (g : α → M) (w : β → M)
    (hb : ∀ it a, g (bump it a) = g a + w it) (hz : ∀ it, g (zero it) = 0)
    (items : List β) :
    ((groupRun keyOf zero bump items).map fun p => g p.2).sum = (items.map w).sum := by
  suffices h : ∀ m : List (K × α),
      ((items.foldl (fun m it => bumpAssoc m (keyOf it) (zero it) (bump it)) m).map
        fun p => g p.2).sum = (m.map fun p => g p.2).sum + (items.map w).sum by
    simpa using h []
  induction items with
  | nil => intro m; simp
  | cons i rest ih =>
    intro m
    rw [List.foldl_cons, ih,
      sum_map_bumpAssoc g m (keyOf i) (zero i) (bump i) (w i) (hb i) (hz i)]
    simp [add_assoc]

/-! ## Injectivity of the underscore-joined keys on underscore-free parts -/

theorem splitU : ∀ (l1 l2 r1 r2 : List Char), '_' ∉ l1 → '_' ∉ l2 →
    l1 ++ '_' :: r1 = l2 ++ '_' :: r2 → l1 = l2 ∧ r1 = r2 := by
  intro l1
  induction l1 with
  | nil =>
    intro l2 r1 r2 h1 h2 he
    cases l2 with
    | nil => simpa using he
    | cons c t =>
      simp only [List.nil_append, List.cons_append, List.cons.injEq] at he
      exact absurd (he.1 ▸ List.mem_cons_self c t) h2
  | cons c t ih =>
    intro l2 r1 r2 h1 h2 he
    cases l2 with
    | nil =>
      simp only [List.nil_append, List.cons_append, List.cons.injEq] at he
      exact absurd (he.1 ▸ List.mem_cons_self c t) h1
    | cons c2 t2 =>
      simp only [List.cons_append, List.cons.injEq] at he
      obtain ⟨rfl, he2⟩ := he
      have h1t : '_' ∉ t := fun hx => h1 (List.mem_cons_of_mem c hx)
      have h2t : '_' ∉ t2 := fun hx => h2 (List.mem_cons_of_mem c 
 hx)
      obtain ⟨rfl, hr⟩ := ih t2 r1 r2 h1t h2t he2
      exact ⟨rfl, hr⟩

theorem join3_inj (a1 b1 c1 a2 b2 c2 : String)
    (ha1 : noU a1) (hb1 : noU b1) (ha2 : noU a2) (hb2 : noU b2)
    (h : join3 a1 b1 c1 = join3 a2 b2 c2) : a1 = a2 ∧ b1 = b2 ∧ c1 = c2 := by
  have hd : a1.data ++ '_' :: (b1.data ++ '_' :: c1.data) =
      a2.data ++ '_' :: (b2.data ++ '_' :: c2.data) := by
    have h2 := congrArg String.data h
    simpa [join3, String.data_append, List.append_assoc] using h2
  obtain ⟨hda, hrest⟩ := splitU a1.data a2.data _ _ ha1 ha2 hd
  obtain ⟨hdb, hdc⟩ := splitU b1.data b2.data _ _ hb1 hb2 hrest
  exact ⟨String.ext hda, String.ext hdb, String.ext hdc⟩

/-! ## Field characterizations of the aggregation folds -/

theorem monthlyFold_fields (l : List AggRow) :
    ∀ a : AggRow,
      (l.foldl (fun x d => monthlyBump d x) a).totalCost
          = a.totalCost + ((l.map fun d => d.totalCost).sum) ∧
      (l.foldl (fun x d => monthlyBump d x) a).totalUsageQuantity
          = a.totalUsageQuantity + ((l.map fun d => d.totalUsageQuantity).sum) ∧
      (l.foldl (fun x d => monthlyBump d x) a).lineItemCount
          = a.lineItemCount + ((l.map fun d => d.lineItemCount).sum) ∧
      (l.foldl (fun x d => monthlyBump d x) a).date = a.date ∧
      (l.foldl (fun x d => monthlyBump d x) a).accountId = a.accountId ∧
      (l.foldl (fun x d => monthlyBump d x) a).service = a.service ∧
      (l.foldl (fun x d => monthlyBump d x) a).region = a.region := by
  induction l with
  | nil => intro a; simp
  | cons d rest ih =>
    intro a
    rw [List.foldl_cons]
    obtain ⟨h1, h2, h3, h4, h5, h6, h7⟩ := ih (monthlyBump d a)
    have hc : (monthlyBump d a).totalCost = a.totalCost + jsOrQ d.totalCost 0 := rfl
    have hu : (monthlyBump d a).totalUsageQuantity
        = a.totalUsageQuantity + jsOrQ d.totalUsageQuantity 0 := rfl
    have hn : (monthlyBump d a).lineItemCount = a.lineItemCount + jsOrN d.lineItemCount 0 := rfl
    refine ⟨?_, ?_, ?_, ?_, ?_, ?_, ?_⟩
    · simp only [List.map_cons, List.sum_cons]
      rw [h1, hc, jsOrQ_zero, add_assoc]
    · simp only [List.map_cons, List.sum_cons]
      rw [h2, hu, jsOrQ_zero, add_assoc]
    · simp only [List.map_cons, List.sum_cons]
      rw [h3, hn, jsOrN_zero, add_assoc]
    · rw [h4]; rfl
    · rw [h5]; rfl
    · rw [h6]; rfl
    · rw [h7]; rfl

theorem fbFold_fields (l : List LineItem) :
    ∀ a : AggRow,
      (l.foldl (fun x it => fbBump it x) a).totalCost
          = a.totalCost + ((l.map fun it => it.cost).sum) ∧
      (l.foldl (fun x it => fbBump it x) a).date = a.date ∧
      (l.foldl (fun x it => fbBump it x) a).accountId = a.accountId ∧
      (l.foldl (fun x it => fbBump it x) a).service = a.service ∧
      (l.foldl (fun x it => fbBump it x) a).region = a.region := by
  induction l with
  | nil => intro a; simp
  | cons it rest ih =>
    intro a
    rw [List.foldl_cons]
    obtain ⟨h1, h2, h3, h4, h5⟩ := ih (fbBump it a)
    have hc : (fbBump it a).totalCost = a.totalCost + jsOrQ it.cost 0 := rfl
    refine ⟨?_, ?_, ?_, ?_, ?_⟩
    · simp only [List.map_cons, List.sum_cons]
      rw [h1, hc, jsOrQ_zero, add_assoc]
    · rw [h2]; rfl
    · rw [h3]; rfl
    · rw [h4]; rfl
    · rw [h5]; rfl

theorem riPushFold (l : List AggRow) :
    ∀ acc : List ℚ,
      l.foldl (fun x it => x ++ [it.totalCost]) acc = acc ++ l.map fun it => it.totalCost := by
  induction l with
  | nil => intro acc; simp
  | cons it rest ih =>
    intro acc
    rw [List.foldl_cons, ih]
    simp

/-! ## Claim theorems: normalizer (C5, C9) -/

section

attribute [local semireducible] Rat.add Rat.mul Rat.sub Rat.inv Rat.ofScientific

/-- C5 counterexample: the claim says the normalized cost equals the
parsed unblended cost whenever an unblended value is present; on a row
with `UnblendedCost = "0"` and `BlendedCost = "5"` that reading demands
cost `0`, but the source's `unblendedCost || blendedCost || 0` treats
the parsed `0` as falsy and yields `5`. -/
theorem cost_fallback_claim_counterexample :
    (normalizeLineItem dparse0 regionOf0 now0 rowC5 "j").cost = 5 ∧
    costClaimC5 rowC5 = 0 ∧
    costClaimC5 rowC5 ≠ (normalizeLineItem dparse0 regionOf0 now0 rowC5 "j").cost := by
  refine ⟨by decide, by decide, by decide⟩

end

/-- C5 (amended): the normalized cost is the parsed unblended cost when
that value is present and parses to a nonzero number, otherwise the
parsed blended cost when present and nonzero, otherwise 0 — a parse
failure, like a parsed value of 0, is falsy and falls through; no row
ever crashes. -/
theorem cost_fallback_truthiness_amended (dparse : String → JDate)
    (regionOf : String → String) (now : JDate) (row : RawRow) (jobId : String) :
    (normalizeLineItem dparse regionOf now row jobId).cost = costAmendedC5 row := by
  have h : (normalizeLineItem dparse regionOf now row jobId).cost
      = jsNumOr ((getCell row "UnblendedCost").map jsParseFloat)
          (jsNumOr ((getCell row "BlendedCost").map jsParseFloat) 0) := rfl
  rw [h, jsNumOr_eq_numPick, jsNumOr_eq_numPick]
  unfold costAmendedC5
  cases numPick ((getCell row "UnblendedCost").map jsParseFloat) <;>
    cases numPick ((getCell row "BlendedCost").map jsParseFloat) <;> rfl

/-- C9: the normalizer always produces a nonempty `accountId` and a
nonempty `service` (falling back to `"unknown"`), and `cost` is always
an assigned number, so the pipeline's missing-required-fields branch
(line 171) is unreachable: no data row is skipped or recorded as an
error entry for missing required fields. -/
theorem normalizer_required_fields_total (dparse : String → JDate)
    (regionOf : String → String) (now : JDate) (row : RawRow) (jobId : String) :
    missingRequired (normalizeLineItem dparse regionOf now row jobId) = false ∧
    (normalizeLineItem dparse regionOf now row jobId).accountId ≠ "" ∧
    (normalizeLineItem dparse regionOf now row jobId).service ≠ "" := by
  have ha : (normalizeLineItem dparse regionOf now row jobId).accountId
      = jsOrStr (getCell row "LinkedAccountId")
          (jsOrStr (getCell row "PayerAccountId") "unknown") := rfl
  have hs : (normalizeLineItem dparse regionOf now row jobId).service
      = jsOrStr (getCell row "ProductName")
          (jsOrStr (getCell row "ProductCode") "unknown") := rfl
  have ha2 : (normalizeLineItem dparse regionOf now row jobId).accountId ≠ "" := by
    rw [ha]
    exact jsOrStr_ne_empty _ _ (jsOrStr_ne_empty _ _ (by decide))
  have hs2 : (normalizeLineItem dparse regionOf now row jobId).service ≠ "" := by
    rw [hs]
    exact jsOrStr_ne_empty _ _ (jsOrStr_ne_empty _ _ (by decide))
  refine ⟨?_, ha2, hs2⟩
  simp only [missingRequired, Bool.or_eq_false_iff, beq_eq_false_iff_ne, ne_eq]
  exact ⟨ha2, hs2⟩

/-! ## Claim theorems: aggregation (C1, C2) -/

section

attribute [local semireducible] Rat.add Rat.mul Rat.sub Rat.inv Rat.ofScientific

/-- C1 (code bug): the `BillingLineItem` schema declares no unique
index, so re-ingesting the same file raises no duplicate-key error:
the single row of `rowC1`, ingested twice for the same user, is stored
twice (both runs count it as processed, neither as skipped) and the
rebuilt daily aggregate total doubles from 5 to 10 — the claimed
idempotency does not hold on the code. -/
theorem ingest_twice_duplicates :
    (billingLineItemIndexes.all fun i => !i.2) = true ∧
    billingLineItemUniqueKeys = [] ∧
    (let r1 := processCSVRows billingLineItemUniqueKeys 1000 dparse0 regionOf0 now0
        "job1" "u1" [] [rowC1]
     let r2 := processCSVRows billingLineItemUniqueKeys 1000 dparse0 regionOf0 now0
        "job2" "u1" r1.store [rowC1]
     r1.store.length = 1 ∧ r1.processedCount = 1 ∧ r1.skippedCount = 0 ∧
       r2.store.length = 2 ∧ r2.processedCount = 1 ∧ r2.skippedCount = 0 ∧
       ((dailyAggregates r1.store).map fun a => a.totalCost).sum = 5 ∧
       ((dailyAggregates r2.store).map fun a => a.totalCost).sum = 10) :=
  ⟨rfl, rfl, by decide⟩

end

/-- C2: after a daily rebuild, the user's daily aggregate rows carry
exactly the user's line items: total cost, total normalized usage and
row count are preserved by the grouping. -/
theorem daily_aggregate_totals_consistent (items : List LineItem) :
    ((dailyAggregates items).map fun a => a.totalCost).sum
        = (items.map fun it => it.cost).sum ∧
    ((dailyAggregates items).map fun a => a.totalUsageQuantity).sum
        = (items.map fun it => it.usageQuantityNormalized).sum ∧
    ((dailyAggregates items).map fun a => a.lineItemCount).sum = items.length := by
  unfold dailyAggregates
  refine ⟨?_, ?_, ?_⟩
  · have h := sum_map_groupRun dailyKey dailyZero dailyBump
      (fun a : AggRow => a.totalCost) (fun it : LineItem => jsOrQ it.cost 0)
      (fun it a => rfl) (fun it => rfl) items
    simp only [jsOrQ_zero] at h
    rw [List.map_map]
    exact h
  · have h := sum_map_groupRun dailyKey dailyZero dailyBump
      (fun a : AggRow => a.totalUsageQuantity)
      (fun it : LineItem => jsOrQ it.usageQuantityNormalized 0)
      (fun it a => rfl) (fun it => rfl) items
    simp only [jsOrQ_zero] at h
    rw [List.map_map]
    exact h
  · have h := sum_map_groupRun dailyKey dailyZero dailyBump
      (fun a : AggRow => a.lineItemCount) (fun _ : LineItem => (1 : ℕ))
      (fun it a => rfl) (fun it => rfl) items
    rw [List.map_map]
    have h2 : ((groupRun dailyKey dailyZero dailyBump items).map
        ((fun a => a.lineItemCount) ∘ Prod.snd)).sum
          = (items.map fun _ : LineItem => (1 : ℕ)).sum := h
    rw [h2]
    simp

/-! ## Claim theorems: batch flush semantics (C4) -/

section

attribute [local semireducible] Rat.add Rat.mul Rat.sub Rat.inv Rat.ofScientific

/-- C4 counterexample: against a store holding `acc1` and a batch of
`[acc1, acc2]` under a unique account key, the unordered write keeps the
fresh `acc2` row, yet the handler counts the entire batch (2 rows) as
skipped and none as processed — not 1 skipped and 1 processed as the
claim requires. -/
theorem batch_dup_counting_counterexample :
    (flushMid ksAcc stC4).skippedCount = 2 ∧
    (flushMid ksAcc stC4).processedCount = 0 ∧
    (flushMid ksAcc stC4).store = [mkLI "acc1" 5, mkLI "acc2" 7] ∧
    (flushMid ksAcc stC4).batch = [] ∧
    ¬ ((flushMid ksAcc stC4).skippedCount = 1 ∧
        (flushMid ksAcc stC4).processedCount = 1) := by
  refine ⟨by decide, by decide, by decide, by decide, by decide⟩

end

theorem insertManyUnordered_store_append (ks : List (LineItem → String)) :
    ∀ (docs store : List LineItem) (b : Bool),
      ∃ kept,
        (docs.foldl
            (fun acc d =>
              if conflicts ks acc.1 d then (acc.1, true) else (acc.1 ++ [d], acc.2))
            (store, b)).1 = store ++ kept ∧ kept.Sublist docs := by
  intro docs
  induction docs with
  | nil =>
    intro store b
    exact ⟨[], by simp, List.nil_sublist []⟩
  | cons d t ih =>
    intro store b
    rw [List.foldl_cons]
    by_cases h : conflicts ks store d
    · simp only [h, if_true]
      obtain ⟨kept, hk, hs⟩ := ih store true
      exact ⟨kept, hk, hs.cons d⟩
    · simp only [Bool.not_eq_true] at h
      simp only [h, Bool.false_eq_true, if_false]
      obtain ⟨kept, hk, hs⟩ := ih (store ++ [d]) b
      refine ⟨d :: kept, ?_, hs.cons₂ d⟩
      rw [hk, List.append_assoc]
      rfl

theorem flushMid_dup (ks : List (LineItem → String)) (st : IngestState)
    (h : (insertManyUnordered ks st.store st.batch).2 = true) :
    flushMid ks st =
      { st with
        store := (insertManyUnordered ks st.store st.batch).1
        skippedCount := st.skippedCount + st.batch.length
        batch := [] } := by
  unfold flushMid
  dsimp only
  split
  · rfl
  · next hfalse => exact absurd h hfalse

/-- C4 (amended): when the unordered batch write raises a duplicate-key
conflict, the batch is not aborted — the store still receives the
non-conflicting rows of the batch (the final store is the original
store plus a sublist of the batch) — but the handler counts the entire
batch as skipped, including the rows just written, and adds none to
processed; the batch is cleared and processing continues.  A
non-duplicate mid-stream write error does not propagate out of the run
either: it falls into the per-row catch, which counts one more skipped
row and one error entry while leaving the batch buffered and the store
untouched. -/
theorem batch_dup_partial_write_amended (ks : List (LineItem → String)) (st : IngestState)
    (h : (insertManyUnordered ks st.store st.batch).2 = true) :
    (flushMid ks st).skippedCount = st.skippedCount + st.batch.length ∧
    (flushMid ks st).processedCount = st.processedCount ∧
    (flushMid ks st).batch = [] ∧
    (flushMid ks st).store = (insertManyUnordered ks st.store st.batch).1 ∧
    (∃ kept, (flushMid ks st).store = st.store ++ kept ∧ kept.Sublist st.batch) ∧
    (flushMidFailure st).skippedCount = st.skippedCount + 1 ∧
    (flushMidFailure st).batch = st.batch ∧
    (flushMidFailure st).store = st.store ∧
    (flushMidFailure st).errors = st.errors ++ [st.rowCount] := by
  have hf := flushMid_dup ks st h
  refine ⟨by rw [hf], by rw [hf], by rw [hf], by rw [hf], ?_, rfl, rfl, rfl, rfl⟩
  obtain ⟨kept, hk, hs⟩ := insertManyUnordered_store_append ks st.batch st.store false
  exact ⟨kept, by rw [hf]; exact hk, hs⟩

section

attribute [local semireducible] Rat.add Rat.mul Rat.sub Rat.inv Rat.ofScientific

/-- C4 witness: the amended behavior at the concrete conflicted batch. -/
theorem batch_dup_amended_witness :
    (insertManyUnordered ksAcc stC4.store stC4.batch).2 = true ∧
    ((flushMid ksAcc stC4).skippedCount = stC4.skippedCount + stC4.batch.length ∧
      (flushMid ksAcc stC4).processedCount = stC4.processedCount ∧
      (flushMid ksAcc stC4).batch = [] ∧
      (flushMid ksAcc stC4).store = (insertManyUnordered ksAcc stC4.store stC4.batch).1 ∧
      (∃ kept, (flushMid ksAcc stC4).store = stC4.store ++ kept ∧
        kept.Sublist stC4.batch) ∧
      (flushMidFailure stC4).skippedCount = stC4.skippedCount + 1 ∧
      (flushMidFailure stC4).batch = stC4.batch ∧
      (flushMidFailure stC4).store = stC4.store ∧
      (flushMidFailure stC4).errors = stC4.errors ++ [stC4.rowCount]) :=
  ⟨by decide, batch_dup_partial_write_amended ksAcc stC4 (by decide)⟩

end

/-! ## Claim theorems: anomaly detection (C7, C10) -/

section

attribute [local semireducible] Rat.add Rat.mul Rat.sub Rat.inv Rat.ofScientific

/-- C7 counterexample: the seven costs `[100,100,100,100,100,100,400]`
sum to 1000, so the group mean is `1000/7` (not the `900/7` the claim
states) and the outlier's z-score is exactly `sqrt 6 ≈ 2.449`, which
does not exceed the default threshold 2.5: `detectAnomalies` emits no
anomaly at all for this input, rather than the one spike the claim
requires. -/
theorem zscore_example_counterexample :
    detectAnomaliesCore (5 / 2) anomalyInput7 = [] ∧
    (detectAnomaliesCore (5 / 2) anomalyInput7).length ≠ 1 ∧
    ((anomalyInput7.map fun a => a.totalCost).sum) / 7 = 1000 / 7 ∧
    (1000 : ℚ) / 7 ≠ 900 / 7 ∧
    (5 / 2 : ℚ) ^ 2 > 6 := by
  refine ⟨by decide, by decide, by decide, by decide, by decide⟩

end

section

attribute [local semireducible] Rat.add Rat.mul Rat.sub Rat.inv Rat.ofScientific

/-- C7 (amended): with threshold 2.5 this input is never flagged since
its only outlier has z-score exactly `sqrt 6 ≤ 2.5`; for any threshold
below `sqrt 6` — e.g. 2.4 — the detector flags exactly the 400 point
and no other, as one spike of severity medium (its squared z-score 6
is at most 9, i.e. z ≤ 3), with `expectedCost` the true group mean
`1000/7`. -/
theorem zscore_example_amended :
    detectAnomaliesCore (12 / 5) anomalyInput7 = [spikeRec7] ∧
    spikeRec7.typ = "spike" ∧
    spikeRec7.severity = "medium" ∧
    spikeRec7.expectedCost = 1000 / 7 ∧
    spikeRec7.cost = 400 ∧
    (12 / 5 : ℚ) ^ 2 < spikeRec7.zScoreSq ∧
    spikeRec7.zScoreSq ≤ 9 := by
  refine ⟨by decide, rfl, rfl, by decide, by decide, by decide, by decide⟩

end

theorem groupAnomalies_severity (θ : ℚ) (key : String) (l : List AggRow) (a : AnomalyRec)
    (ha : a ∈ groupAnomalies θ key l) :
    a.severity = "medium" ∨ a.severity = "high" ∨ a.severity = "critical" := by
  simp only [groupAnomalies] at ha
  split at ha
  · exact absurd ha (by simp)
  · obtain ⟨x, hx, rfl⟩ := List.mem_map.mp ha
    dsimp only
    split_ifs
    · right; right; rfl
    · right; left; rfl
    · left; rfl

/-- C10: every anomaly the detector emits has severity medium, high or
critical; the severity `low`, though present in the Anomaly schema's
enumeration, is never assigned. -/
theorem anomaly_severity_never_low (threshold : ℚ) (pts : List AggRow) (a : AnomalyRec)
    (ha : a ∈ detectAnomaliesCore threshold pts) :
    a.severity ≠ "low" ∧ a.severity ∈ anomalySeverityEnum ∧
      (a.severity = "medium" ∨ a.severity = "high" ∨ a.severity = "critical") := by
  have h3 : a.severity = "medium" ∨ a.severity = "high" ∨ a.severity = "critical" := by
    simp only [detectAnomaliesCore] at ha
    split at ha
    · exact absurd ha (by simp)
    · obtain ⟨l, hl, hal⟩ := List.mem_flatten.mp ha
      obtain ⟨kg, hkg, rfl⟩ := List.mem_map.mp hl
      exact groupAnomalies_severity threshold kg.1 kg.2 a hal
  refine ⟨?_, ?_, h3⟩
  · rcases h3 with h | h | h <;> simp [h]
  · rcases h3 with h | h | h <;> simp [h, anomalySeverityEnum]

section

attribute [local semireducible] Rat.add Rat.mul Rat.sub Rat.inv Rat.ofScientific

/-- C10 witness: the concrete spike anomaly is emitted and its severity
is not `low`. -/
theorem anomaly_severity_witness :
    spikeRec7 ∈ detectAnomaliesCore (12 / 5) anomalyInput7 ∧
    (spikeRec7.severity ≠ "low" ∧ spikeRec7.severity ∈ anomalySeverityEnum ∧
      (spikeRec7.severity = "medium" ∨ spikeRec7.severity = "high" ∨
        spikeRec7.severity = "critical")) :=
  ⟨by decide, anomaly_severity_never_low (12 / 5) anomalyInput7 spikeRec7 (by decide)⟩

end

/-! ## Claim theorems: reserved-instance rule (C8) -/

theorem riCandidate_accountId (kc : String × List ℚ) (r : RIRec)
    (hr : riCandidate kc = some r) : r.accountId = kc.1 := by
  simp only [riCandidate] at hr
  split at hr
  · injection hr with h
    rw [← h]
  · exact Option.noConfusion hr

theorem filter_filterMap_riCandidate (groups : List (String × List ℚ)) (acct : String) :
    (groups.filterMap riCandidate).filter (fun r => decide (r.accountId = acct)) =
      (groups.filter (fun kv => decide (kv.1 = acct))).filterMap riCandidate := by
  induction groups with
  | nil => rfl
  | cons kc t ih =>
    rcases hr : riCandidate kc with _ | r
    · by_cases hk : kc.1 = acct <;>
        simp [List.filterMap_cons, List.filter_cons, hr, hk, ih]
    · have hacc : r.accountId = kc.1 := riCandidate_accountId kc r hr
      by_cases hk : kc.1 = acct
      · simp [List.filterMap_cons, List.filter_cons, hr, hk, hacc, ih]
      · simp [List.filterMap_cons, List.filter_cons, hr, hk, hacc, ih]

theorem filter_key_of_nodup {K α : Type} [DecidableEq K] (m : List (K × α)) (k : K)
    (hn : (m.map Prod.fst).Nodup) :
    m.filter (fun kv => decide (kv.1 = k)) =
      (match lookupA m k with
       | some v => [(k, v)]
       | none => []) := by
  induction m with
  | nil => rfl
  | cons p t ih =>
    obtain ⟨k1, a1⟩ := p
    have hn2 : k1 ∉ t.map Prod.fst ∧ (t.map Prod.fst).Nodup := by
      simpa [List.nodup_cons] using hn
    by_cases hk : k1 = k
    · subst hk
      have ht : t.filter (fun kv : K × α => decide (kv.1 = k1)) = [] := by
        rw [List.filter_eq_nil_iff]
        intro kv hkv
        simp only [decide_eq_true_eq]
        exact fun he => hn2.1 (he ▸ List.mem_map_of_mem Prod.fst hkv)
      simp [List.filter_cons, lookupA, ht]
    · simp [List.filter_cons, lookupA, hk, ih hn2.2]

theorem filterMap_riCandidate_single (acct : String) (costs : List ℚ) :
    List.filterMap riCandidate [(acct, costs)] =
      (let n : ℚ := costs.length
       let mean := costs.sum / n
       let varPop := (costs.map fun c => (c - mean) ^ 2).sum / n
       if 500 < mean ∧ 25 * varPop < mean ^ 2 then
         [{ typ := "reserved_instance", priority := "high", accountId := acct,
            currentCost := mean, estimatedSavings := mean / 2,
            estimatedSavingsPercent := 50 }]
       else []) := by
  simp only [List.filterMap_cons, List.filterMap_nil, riCandidate]
  split_ifs with hC
  · simp [mul_one_div, div_eq_mul_inv]
  · rfl

/-- C8: for every account present in the fetched monthly EC2 aggregate
rows, `generateRecommendations` emits exactly one `reserved_instance`
recommendation for that account — with priority `high`,
`estimatedSavings` half the mean monthly cost and
`estimatedSavingsPercent` 50 — precisely when the account's mean
monthly cost exceeds 500 and its coefficient of variation (population
standard deviation over mean) is below 0.2, here stated in the
equivalent squared form `25 * variance < mean^2`; an account failing
either condition gets none. -/
theorem ri_rule_characterization (items : List AggRow) (acct : String)
    (h : acct ∈ items.map fun it => it.accountId) :
    (detectRIOpportunities items).filter (fun r => decide (r.accountId = acct)) =
      (let costs := (items.filter fun it => decide (it.accountId = acct)).map
          fun it => it.totalCost
       let n : ℚ := costs.length
       let mean := costs.sum / n
       let varPop := (costs.map fun c => (c - mean) ^ 2).sum / n
       if 500 < mean ∧ 25 * varPop < mean ^ 2 then
         [{ typ := "reserved_instance", priority := "high", accountId := acct,
            currentCost := mean, estimatedSavings := mean / 2,
            estimatedSavingsPercent := 50 }]
       else []) := by
  unfold detectRIOpportunities
  rw [filter_filterMap_riCandidate,
    filter_key_of_nodup _ acct
      (nodup_fst_groupRun (fun it : AggRow => it.accountId) (fun _ => ([] : List ℚ))
        (fun it l => l ++ [it.totalCost]) items),
    lookupA_groupRun]
  rcases hfl : items.filter (fun it => decide (it.accountId = acct)) with _ | ⟨i, rest⟩
  · exfalso
    obtain ⟨it, hit, hia⟩ := List.mem_map.mp h
    have : it ∈ items.filter (fun it => decide (it.accountId = acct)) :=
      List.mem_filter.mpr ⟨hit, by simpa using hia⟩
    rw [hfl] at this
    exact absurd this (List.not_mem_nil it)
  · rw [hfl, optFold_none_cons, riPushFold]
    exact filterMap_riCandidate_single acct ((i :: rest).map fun it => it.totalCost)

/-- C8 witness: account `111` of the concrete monthly rows satisfies the
stability condition and receives its single recommendation. -/
theorem ri_rule_witness :
    ("111" ∈ riItems.map fun it => it.accountId) ∧
    ((detectRIOpportunities riItems).filter (fun r => decide (r.accountId = "111")) =
      (let costs := (riItems.filter fun it => decide (it.accountId = "111")).map
          fun it => it.totalCost
       let n : ℚ := costs.length
       let mean := costs.sum / n
       let varPop := (costs.map fun c => (c - mean) ^ 2).sum / n
       if 500 < mean ∧ 25 * varPop < mean ^ 2 then
         [{ typ := "reserved_instance", priority := "high", accountId := "111",
            currentCost := mean, estimatedSavings := mean / 2,
            estimatedSavingsPercent := 50 }]
       else [])) :=
  ⟨by decide, ri_rule_characterization riItems "111" (by decide)⟩

/-! ## Claim theorems: monthly roll-up (C3) -/

section

attribute [local semireducible] Rat.add Rat.mul Rat.sub Rat.inv Rat.ofScientific

/-- C3 counterexample: two daily rows of the same month whose distinct
dimension tuples (`a_b`, `c`) and (`a`, `b_c`) collide in the
underscore-joined grouping key are merged into one monthly row carrying
the first tuple and the combined total 3, while the daily rows that
actually match that monthly row's tuple sum to 1. -/
theorem monthly_rollup_claim_counterexample :
    computeMonthlyAggregates [aggU1, aggU2] = [mrowU] ∧
    (([aggU1, aggU2].filter (monthMatch mrowU)).map fun d => d.totalCost).sum = 1 ∧
    mrowU.totalCost = 3 ∧
    mrowU.totalCost ≠
      (([aggU1, aggU2].filter (monthMatch mrowU)).map fun d => d.totalCost).sum := by
  refine ⟨by decide, by decide, by decide, by decide⟩

end

/-- C3 (amended): provided every daily row's account, service and region
are nonempty and contain no underscore — so the `_`-joined string key
identifies the dimension tuple — every monthly row built by the rebuild
carries exactly the sums of `totalCost`, `totalUsageQuantity` and
`lineItemCount` over the user's daily rows of its month and dimension
tuple. -/
theorem monthly_rollup_per_tuple_amended (rows : List AggRow)
    (hdims : ∀ r ∈ rows, dimsOK r) :
    ∀ p ∈ computeMonthlyAggregates rows,
      p.totalCost = ((rows.filter (monthMatch p)).map fun d => d.totalCost).sum ∧
      p.totalUsageQuantity
          = ((rows.filter (monthMatch p)).map fun d => d.totalUsageQuantity).sum ∧
      p.lineItemCount = ((rows.filter (monthMatch p)).map fun d => d.lineItemCount).sum := by
  intro p hp
  unfold computeMonthlyAggregates at hp
  obtain ⟨pair, hmem, rfl⟩ := List.mem_map.mp hp
  obtain ⟨kp, q⟩ := pair
  dsimp only at hmem ⊢
  have hlk : lookupA (groupRun monthlyKey monthlyZero monthlyBump rows) kp = some q :=
    lookupA_of_mem (nodup_fst_groupRun monthlyKey monthlyZero monthlyBump rows) hmem
  rw [lookupA_groupRun] at hlk
  rcases hfl : rows.filter (fun d => decide (monthlyKey d = kp)) with _ | ⟨d1, rest⟩
  · rw [hfl] at hlk
    exact Option.noConfusion hlk
  · rw [hfl, optFold_none_cons] at hlk
    injection hlk with hq
    have hd1 : d1 ∈ rows.filter (fun d => decide (monthlyKey d = kp)) := by
      rw [hfl]
      exact List.mem_cons_self d1 rest
    have hd1rows : d1 ∈ rows := List.mem_of_mem_filter hd1
    have hd1key : monthlyKey d1 = kp := by
      have h2 := List.of_mem_filter hd1
      simpa using h2
    obtain ⟨hane, hau, hsne, hsu, hrne, hru⟩ := hdims d1 hd1rows
    obtain ⟨hc, hu, hn, hdate, hacc, hsvc, hreg⟩ :=
      monthlyFold_fields rest (monthlyBump d1 (monthlyZero d1))
    rw [hq] at hc hu hn hdate hacc hsvc hreg
    have hsc : (monthlyBump d1 (monthlyZero d1)).totalCost = d1.totalCost := by
      simp [monthlyBump, monthlyZero, jsOrQ_zero]
    have hsu3 : (monthlyBump d1 (monthlyZero d1)).totalUsageQuantity
        = d1.totalUsageQuantity := by
      simp [monthlyBump, monthlyZero, jsOrQ_zero]
    have hsn : (monthlyBump d1 (monthlyZero d1)).lineItemCount = d1.lineItemCount := by
      simp [monthlyBump, monthlyZero, jsOrN_zero]
    have hsacc : (monthlyBump d1 (monthlyZero d1)).accountId = d1.accountId := by
      simp [monthlyBump, monthlyZero, jsStr_of_ne _ _ hane]
    have hssvc : (monthlyBump d1 (monthlyZero d1)).service = d1.service := by
      simp [monthlyBump, monthlyZero, jsStr_of_ne _ _ hsne]
    have hsreg : (monthlyBump d1 (monthlyZero d1)).region = d1.region := by
      simp [monthlyBump, monthlyZero, jsStr_of_ne _ _ hrne]
    have hsdate : (monthlyBump d1 (monthlyZero d1)).date = monthFirst d1.date := by
      simp [monthlyBump, monthlyZero]
    have hqacc : q.accountId = d1.accountId := hacc.trans hsacc
    have hqsvc : q.service = d1.service := hsvc.trans hssvc
    have hqreg : q.region = d1.region := hreg.trans hsreg
    have hqdate : q.date = monthFirst d1.date := hdate.trans hsdate
    have hfeq : rows.filter (fun d => decide (monthlyKey d = kp))
        = rows.filter (monthMatch q) := by
      apply List.filter_congr
      intro d hd
      obtain ⟨hane2, hau2, hsne2, hsu2, hrne2, hru2⟩ := hdims d hd
      by_cases hdk : monthlyKey d = kp
      · have hdk2 := hdk
        rw [← hd1key] at hdk2
        unfold monthlyKey at hdk2
        injection hdk2 with hdt hj
        rw [jsStr_of_ne _ _ hane2, jsStr_of_ne _ _ hsne2, jsStr_of_ne _ _ hrne2,
          jsStr_of_ne _ _ hane, jsStr_of_ne _ _ hsne, jsStr_of_ne _ _ hrne] at hj
        obtain ⟨hja, hjs, hjr⟩ := join3_inj _ _ _ _ _ _ hau2 hsu2 hau hsu hj
        have hgoal : monthMatch q d = true := by
          simp only [monthMatch, Bool.and_eq_true, decide_eq_true_eq, beq_iff_eq]
          exact ⟨⟨⟨hdt.trans hqdate.symm, hja.trans hqacc.symm⟩, hjs.trans hqsvc.symm⟩,
            hjr.trans hqreg.symm⟩
        rw [hgoal]
        simp [hdk]
      · have hgoal : monthMatch q d = false := by
          rcases hmm2 : monthMatch q d with _ | _
          · rfl
          · exfalso
            simp only [monthMatch, Bool.and_eq_true, decide_eq_true_eq, beq_iff_eq] at hmm2
            obtain ⟨⟨⟨hdt, hda⟩, hds⟩, hdr⟩ := hmm2
            apply hdk
            rw [← hd1key]
            unfold monthlyKey
            rw [jsStr_of_ne _ _ hane2, jsStr_of_ne _ _ hsne2, jsStr_of_ne _ _ hrne2,
              jsStr_of_ne _ _ hane, jsStr_of_ne _ _ hsne, jsStr_of_ne _ _ hrne]
            rw [hdt, hqdate, hda, hqacc, hds, hqsvc, hdr, hqreg]
        rw [hgoal]
        simp [hdk]
    refine ⟨?_, ?_, ?_⟩
    · rw [← hfeq, hfl, List.map_cons, List.sum_cons, hc, hsc]
    · rw [← hfeq, hfl, List.map_cons, List.sum_cons, hu, hsu3]
    · rw [← hfeq, hfl, List.map_cons, List.sum_cons, hn, hsn]

/-- C3 witness: on three underscore-free daily rows the monthly rows
carry exactly the per-tuple sums. -/
theorem monthly_rollup_amended_witness :
    (∀ r ∈ aggW, dimsOK r) ∧
    (∀ p ∈ computeMonthlyAggregates aggW,
      p.totalCost = ((aggW.filter (monthMatch p)).map fun d => d.totalCost).sum ∧
      p.totalUsageQuantity
          = ((aggW.filter (monthMatch p)).map fun d => d.totalUsageQuantity).sum ∧
      p.lineItemCount = ((aggW.filter (monthMatch p)).map fun d => d.lineItemCount).sum) :=
  ⟨by decide, monthly_rollup_per_tuple_amended aggW (by decide)⟩

/-! ## Claim theorems: anomaly-detection fallback granularity (C6) -/

section

attribute [local semireducible] Rat.add Rat.mul Rat.sub Rat.inv Rat.ofScientific

/-- C6 counterexample: two same-day line items that differ only in
account produce two fallback data points (one per account, carrying the
raw accounts `a1` and `a2`, with costs 1 and 2), not the single
day-total point of cost 3 that the claim describes. -/
theorem fallback_granularity_counterexample :
    (fallbackDailyPoints liC6).length = 2 ∧
    ((fallbackDailyPoints liC6).map fun p => p.totalCost) = [1, 2] ∧
    ((fallbackDailyPoints liC6).map fun p => p.accountId) = ["a1", "a2"] ∧
    fallbackClaimC6 liC6 = [(day5, 3)] ∧
    (fallbackDailyPoints liC6).length ≠ (fallbackClaimC6 liC6).length := by
  refine ⟨by decide, by decide, by decide, by decide, by decide⟩

end

/-- C6 (amended): the fallback groups line items by (calendar day,
accountId, service, region) — the same granularity as the daily
aggregation, not by day alone — and each data point carries the items'
raw dimensions; provided the dimensions are nonempty and
underscore-free (so the joined key identifies the tuple), each point's
`totalCost` is the sum of the costs of exactly the items matching its
day and dimension tuple. -/
theorem fallback_group_totals_amended (items : List LineItem)
    (hdims : ∀ it ∈ items, dimsOKItem it) :
    ∀ p ∈ fallbackDailyPoints items,
      p.totalCost = ((items.filter (dayMatch p)).map fun it => it.cost).sum := by
  intro p hp
  unfold fallbackDailyPoints at hp
  obtain ⟨pair, hmem, rfl⟩ := List.mem_map.mp hp
  obtain ⟨kp, q⟩ := pair
  dsimp only at hmem ⊢
  have hlk : lookupA (groupRun fbKey fbZero fbBump items) kp = some q :=
    lookupA_of_mem (nodup_fst_groupRun fbKey fbZero fbBump items) hmem
  rw [lookupA_groupRun] at hlk
  rcases hfl : items.filter (fun it => decide (fbKey it = kp)) with _ | ⟨i1, rest⟩
  · rw [hfl] at hlk
    exact Option.noConfusion hlk
  · rw [hfl, optFold_none_cons] at hlk
    injection hlk with hq
    have hi1 : i1 ∈ items.filter (fun it => decide (fbKey it = kp)) := by
      rw [hfl]
      exact List.mem_cons_self i1 rest
    have hi1items : i1 ∈ items := List.mem_of_mem_filter hi1
    have hi1key : fbKey i1 = kp := by
      have h2 := List.of_mem_filter hi1
      simpa using h2
    obtain ⟨hane, hau, hsne, hsu, hrne, hru⟩ := hdims i1 hi1items
    obtain ⟨hc, hdate, hacc, hsvc, hreg⟩ := fbFold_fields rest (fbBump i1 (fbZero i1))
    rw [hq] at hc hdate hacc hsvc hreg
    have hsc : (fbBump i1 (fbZero i1)).totalCost = i1.cost := by
      simp [fbBump, fbZero, jsOrQ_zero]
    have hsacc : (fbBump i1 (fbZero i1)).accountId = i1.accountId := by
      simp [fbBump, fbZero]
    have hssvc : (fbBump i1 (fbZero i1)).service = i1.service := by
      simp [fbBump, fbZero]
    have hsreg : (fbBump i1 (fbZero i1)).region = i1.region := by
      simp [fbBump, fbZero]
    have hsdate : (fbBump i1 (fbZero i1)).date = itemDay i1 := by
      simp [fbBump, fbZero]
    have hqacc : q.accountId = i1.accountId := hacc.trans hsacc
    have hqsvc : q.service = i1.service := hsvc.trans hssvc
    have hqreg : q.region = i1.region := hreg.trans hsreg
    have hqdate : q.date = itemDay i1 := hdate.trans hsdate
    have hfeq : items.filter (fun it => decide (fbKey it = kp))
        = items.filter (dayMatch q) := by
      apply List.filter_congr
      intro d hd
      obtain ⟨hane2, hau2, hsne2, hsu2, hrne2, hru2⟩ := hdims d hd
      by_cases hdk : fbKey d = kp
      · have hdk2 := hdk
        rw [← hi1key] at hdk2
        unfold fbKey at hdk2
        injection hdk2 with hdt hj
        rw [jsStr_of_ne _ _ hane2, jsStr_of_ne _ _ hsne2, jsStr_of_ne _ _ hrne2,
          jsStr_of_ne _ _ hane, jsStr_of_ne _ _ hsne, jsStr_of_ne _ _ hrne] at hj
        obtain ⟨hja, hjs, hjr⟩ := join3_inj _ _ _ _ _ _ hau2 hsu2 hau hsu hj
        have hgoal : dayMatch q d = true := by
          simp only [dayMatch, Bool.and_eq_true, decide_eq_true_eq, beq_iff_eq]
          exact ⟨⟨⟨hdt.trans hqdate.symm, hja.trans hqacc.symm⟩, hjs.trans hqsvc.symm⟩,
            hjr.trans hqreg.symm⟩
        rw [hgoal]
        simp [hdk]
      · have hgoal : dayMatch q d = false := by
          rcases hmm2 : dayMatch q d with _ | _
          · rfl
          · exfalso
            simp only [dayMatch, Bool.and_eq_true, decide_eq_true_eq, beq_iff_eq] at hmm2
            obtain ⟨⟨⟨hdt, hda⟩, hds⟩, hdr⟩ := hmm2
            apply hdk
            rw [← hi1key]
            unfold fbKey
            rw [jsStr_of_ne _ _ hane2, jsStr_of_ne _ _ hsne2, jsStr_of_ne _ _ hrne2,
              jsStr_of_ne _ _ hane, jsStr_of_ne _ _ hsne, jsStr_of_ne _ _ hrne]
            rw [hdt, hqdate, hda, hqacc, hds, hqsvc, hdr, hqreg]
        rw [hgoal]
        simp [hdk]
    rw [← hfeq, hfl, List.map_cons, List.sum_cons, hc, hsc]

/-- C6 witness: on the two concrete items (underscore-free dimensions)
each fallback point's total is the sum over its matching items. -/
theorem fallback_amended_witness :
    (∀ it ∈ liC6, dimsOKItem it) ∧
    (∀ p ∈ fallbackDailyPoints liC6,
      p.totalCost = ((liC6.filter (dayMatch p)).map fun it => it.cost).sum) :=
  ⟨by decide, fallback_group_totals_amended liC6 (by decide)⟩
